import Mathlib

/-!
Verification of `src/geomloss/examples/performances/plot_benchmarks_ot_3D.py`.

The script's algorithmic core is `sinkhorn_loop`, a log-domain Sinkhorn
iteration over two weighted point clouds, with two cost-matrix backends
("keops" computes `((x_i - y_j) ** 2).sum(-1) / 2` lazily, "pytorch"
materializes the separable form `(D_xx + D_yy) / 2 - D_xy`).  Around it sit
`full_benchmark` (which produces a ground-truth cost with an external
reference solver and then benchmarks many solver configurations) and
`subsample` (decimation of a weighted point cloud with renormalization).

Numbers are modelled by `ℝ`; the tensors of the script become functions
`Fin N → ℝ` (vectors) and `Fin N → Fin D → ℝ` (point clouds), or `List ℝ`
where the code slices sequences.  `torch.log` and `torch.exp` are total
functions on tensors (they never raise; out-of-domain inputs produce
non-finite floats), so they are modelled by the total functions `Real.log`
and `Real.exp`.  Python control-flow failures (here: reading the never
assigned local `C_ij` when the backend string is unrecognized, which raises
`UnboundLocalError`) are modelled with `Except`.
-/

namespace Benchmarks3D

/-- The one Python exception `sinkhorn_loop` itself can raise: when `backend`
is neither `"keops"` nor `"pytorch"`, no branch assigns `C_ij`, and the first
read of `C_ij` inside the loop raises `UnboundLocalError`. -/
inductive PyError where
  | unboundLocalError
deriving DecidableEq

/-- Line 91 (`backend == "keops"` branch): `C_ij = ((x_i - y_j) ** 2).sum(-1) / 2`,
one entry of the cost matrix as a function of the two points. -/
noncomputable def costKeops (D : ℕ) (x y : Fin D → ℝ) : ℝ :=
  (∑ d, (x d - y d) ^ 2) / 2

/-- Lines 97-100 (`backend == "pytorch"` branch):
`D_xx = (x_i ** 2).sum(-1)`, `D_xy = x_i @ y_j.t()`, `D_yy = (y_j ** 2).sum(-1)`,
`C_ij = (D_xx + D_yy) / 2 - D_xy`, one entry as a function of the two points. -/
noncomputable def costDense (D : ℕ) (x y : Fin D → ℝ) : ℝ :=
  ((∑ d, x d ^ 2) + (∑ d, y d ^ 2)) / 2 - ∑ d, x d * y d

/-- `v.logsumexp()` over an axis of size `n`: `log (∑ k, exp (v k))`. -/
noncomputable def logsumexp (n : ℕ) (v : Fin n → ℝ) : ℝ :=
  Real.log (∑ k, Real.exp (v k))

/-- One iteration of the loop body, lines 110-111:
`F_i = -((-C_ij / eps + (G_j + logb_j))).logsumexp(dim=1)` then
`G_j = -((-C_ij / eps + (F_i + loga_i))).logsumexp(dim=0)`, where the `G`
update reads the `F` that was just reassigned. -/
noncomputable def sinkhornStep (N M : ℕ) (C : Fin N → Fin M → ℝ) (eps : ℝ)
    (loga : Fin N → ℝ) (logb : Fin M → ℝ)
    (FG : (Fin N → ℝ) × (Fin M → ℝ)) : (Fin N → ℝ) × (Fin M → ℝ) :=
  let F : Fin N → ℝ := fun i => - logsumexp M (fun j => - C i j / eps + (FG.2 j + logb j))
  let G : Fin M → ℝ := fun j => - logsumexp N (fun i => - C i j / eps + (F i + loga i))
  (F, G)

/-- The `for _ in range(nits)` loop, lines 109-111.  Each iteration reads the
local `C_ij`; if no backend branch assigned it (`Copt = none`), that first
read raises `UnboundLocalError`.  With `nits = 0` the body never runs and
`C_ij` is never read. -/
def sinkhornIter {γ α : Type} (Copt : Option γ) (step : γ → α → α) :
    ℕ → α → Except PyError α
  | 0, fg => .ok fg
  | n + 1, fg =>
    match Copt with
    | none => .error PyError.unboundLocalError
    | some C => sinkhornIter Copt step n (step C fg)

/-- The raw (log-domain, ε-normalized) dual iterates: `t` applications of the
loop body starting from the zero initialization of line 106. -/
noncomputable def sinkhornRawIter (N M : ℕ) (C : Fin N → Fin M → ℝ) (eps : ℝ)
    (loga : Fin N → ℝ) (logb : Fin M → ℝ) (t : ℕ) : (Fin N → ℝ) × (Fin M → ℝ) :=
  (sinkhornStep N M C eps loga logb)^[t] (fun _ => 0, fun _ => 0)

/-- `sinkhorn_loop(a_i, x_i, b_j, y_j, blur, nits, backend)`, lines 81-114.
`loga_i, logb_j = a_i.log(), b_j.log()` (total, never raises); the backend
`if/elif` selects the cost matrix (no `else`: an unrecognized backend leaves
`C_ij` unassigned); `eps = blur ** 2`; dual vectors start at zero; the loop
runs `nits` times; the return is `eps * F_i, eps * G_j`. -/
noncomputable def sinkhorn_loop (N M D : ℕ) (a_i : Fin N → ℝ) (x_i : Fin N → Fin D → ℝ)
    (b_j : Fin M → ℝ) (y_j : Fin M → Fin D → ℝ)
    (blur : ℝ) (nits : ℕ) (backend : String) :
    Except PyError ((Fin N → ℝ) × (Fin M → ℝ)) :=
  let loga : Fin N → ℝ := fun i => Real.log (a_i i)
  let logb : Fin M → ℝ := fun j => Real.log (b_j j)
  let Copt : Option (Fin N → Fin M → ℝ) :=
    if backend = "keops" then some (fun i j => costKeops D (x_i i) (y_j j))
    else if backend = "pytorch" then some (fun i j => costDense D (x_i i) (y_j j))
    else none
  let eps : ℝ := blur ^ 2
  match sinkhornIter Copt (fun C => sinkhornStep N M C eps loga logb) nits
      (fun _ => 0, fun _ => 0) with
  | .error e => .error e
  | .ok FG => .ok (fun i => eps * FG.1 i, fun j => eps * FG.2 j)

/-- Modelled from the spec (§4.2, step 2), for comparison with the code: the
Gauss-Seidel sweep recurrence expressed in cost units,
`F_i ← −ε·logsumexp_j[(−C_ij/ε) + G_j/ε + log b_j]` using the previous
sweep's `G`, then `G_j ← −ε·logsumexp_i[(−C_ij/ε) + F_i/ε + log a_i]` using
the just-updated `F`, starting from `F = 0, G = 0`. -/
noncomputable def specSweep (N M : ℕ) (C : Fin N → Fin M → ℝ) (eps : ℝ)
    (a : Fin N → ℝ) (b : Fin M → ℝ) : ℕ → (Fin N → ℝ) × (Fin M → ℝ)
  | 0 => (fun _ => 0, fun _ => 0)
  | t + 1 =>
    let G0 : Fin M → ℝ := (specSweep N M C eps a b t).2
    let F : Fin N → ℝ := fun i =>
      - eps * Real.log (∑ j, Real.exp (- C i j / eps + G0 j / eps + Real.log (b j)))
    let G : Fin M → ℝ := fun j =>
      - eps * Real.log (∑ i, Real.exp (- C i j / eps + F i / eps + Real.log (a i)))
    (F, G)

/-- `full_benchmark(source, target, blur, maxtime)`, lines 143-178, reduced to
the data flow of measures into solver runs.  Measures stay abstract (`μ`), the
collected statistics stay abstract (`ρ`).  `benchSolver blur s t` stands for
`benchmark_solver(OT_solver, blur, s, t)` with the high-accuracy reference
configuration of lines 146-147 already applied; `benchSolvers s t gt blur`
stands for the whole block of `benchmark_solvers` calls (lines 154-176),
which all receive the `source` and `target` arguments together with the
ground truth.  Lines 146-148 compute the ground truth from the module-level
lists: `benchmark_solver(OT_solver, blur, sources[0], targets[0])` — not from
the `source` and `target` parameters. -/
def full_benchmark {μ ρ : Type} (benchSolver : ℝ → μ → μ → ℝ)
    (benchSolvers : μ → μ → ℝ → ℝ → ρ)
    (sources targets : ℕ → μ) (source target : μ) (blur : ℝ) : ρ × ℝ :=
  let ground_truth : ℝ := benchSolver blur (sources 0) (targets 0)
  let results : ρ := benchSolvers source target ground_truth blur
  (results, ground_truth)

/-- Python slicing `l[::d]`: keep indices `0, d, 2d, ...`. -/
def sliceStep {α : Type} : List α → ℕ → List α
  | [], _ => []
  | x :: xs, d => x :: sliceStep (xs.drop (d - 1)) d
termination_by l _ => l.length
decreasing_by
  simp only [List.length_drop, List.length_cons]
  omega

/-- `subsample(measure, decimation)`, lines 280-284: slice both components
with step `decimation`, then divide the sliced weights by their sum. -/
noncomputable def subsample {α : Type} (measure : List ℝ × List α) (decimation : ℕ) :
    List ℝ × List α :=
  let weights : List ℝ := sliceStep measure.1 decimation
  let locations : List α := sliceStep measure.2 decimation
  let weights2 : List ℝ := weights.map (fun w => w / weights.sum)
  (weights2, locations)

/-! ### Helper lemmas -/

theorem costDense_eq_costKeops (D : ℕ) (x y : Fin D → ℝ) :
    costDense D x y = costKeops D x y := by
  unfold costDense costKeops
  have h : (∑ d, (x d - y d) ^ 2)
      = ((∑ d, x d ^ 2) + (∑ d, y d ^ 2)) - 2 * ∑ d, x d * y d := by
    rw [Finset.mul_sum, ← Finset.sum_add_distrib, ← Finset.sum_sub_distrib]
    exact Finset.sum_congr rfl fun d _ => by ring
  rw [h]
  ring

theorem sinkhornIter_some {γ α : Type} (C : γ) (step : γ → α → α) (n : ℕ) :
    ∀ fg : α, sinkhornIter (some C) step n fg = .ok ((step C)^[n] fg) := by
  induction n with
  | zero => intro fg; rfl
  | succ n ih =>
    intro fg
    simp only [sinkhornIter, ih, Function.iterate_succ_apply]

theorem sinkhornRawIter_succ (N M : ℕ) (C : Fin N → Fin M → ℝ) (eps : ℝ)
    (loga : Fin N → ℝ) (logb : Fin M → ℝ) (t : ℕ) :
    sinkhornRawIter N M C eps loga logb (t + 1)
      = sinkhornStep N M C eps loga logb (sinkhornRawIter N M C eps loga logb t) := by
  unfold sinkhornRawIter
  exact Function.iterate_succ_apply' _ t _

theorem sinkhorn_loop_keops_eq (N M D : ℕ) (a_i : Fin N → ℝ) (x_i : Fin N → Fin D → ℝ)
    (b_j : Fin M → ℝ) (y_j : Fin M → Fin D → ℝ) (blur : ℝ) (nits : ℕ) :
    sinkhorn_loop N M D a_i x_i b_j y_j blur nits "keops" =
      .ok (fun i => blur ^ 2 *
             (sinkhornRawIter N M (fun i j => costKeops D (x_i i) (y_j j)) (blur ^ 2)
               (fun i => Real.log (a_i i)) (fun j => Real.log (b_j j)) nits).1 i,
           fun j => blur ^ 2 *
             (sinkhornRawIter N M (fun i j => costKeops D (x_i i) (y_j j)) (blur ^ 2)
               (fun i => Real.log (a_i i)) (fun j => Real.log (b_j j)) nits).2 j) := by
  unfold sinkhorn_loop sinkhornRawIter
  simp [sinkhornIter_some]

theorem sinkhorn_loop_pytorch_eq (N M D : ℕ) (a_i : Fin N → ℝ) (x_i : Fin N → Fin D → ℝ)
    (b_j : Fin M → ℝ) (y_j : Fin M → Fin D → ℝ) (blur : ℝ) (nits : ℕ) :
    sinkhorn_loop N M D a_i x_i b_j y_j blur nits "pytorch" =
      .ok (fun i => blur ^ 2 *
             (sinkhornRawIter N M (fun i j => costDense D (x_i i) (y_j j)) (blur ^ 2)
               (fun i => Real.log (a_i i)) (fun j => Real.log (b_j j)) nits).1 i,
           fun j => blur ^ 2 *
             (sinkhornRawIter N M (fun i j => costDense D (x_i i) (y_j j)) (blur ^ 2)
               (fun i => Real.log (a_i i)) (fun j => Real.log (b_j j)) nits).2 j) := by
  unfold sinkhorn_loop sinkhornRawIter
  simp [sinkhornIter_some]

theorem sinkhorn_loop_zero_nits (N M D : ℕ) (a_i : Fin N → ℝ) (x_i : Fin N → Fin D → ℝ)
    (b_j : Fin M → ℝ) (y_j : Fin M → Fin D → ℝ) (blur : ℝ) (backend : String) :
    sinkhorn_loop N M D a_i x_i b_j y_j blur 0 backend
      = .ok (fun _ => 0, fun _ => 0) := by
  unfold sinkhorn_loop
  simp [sinkhornIter]

theorem sinkhorn_loop_invalid_backend_succ (N M D : ℕ) (a_i : Fin N → ℝ)
    (x_i : Fin N → Fin D → ℝ) (b_j : Fin M → ℝ) (y_j : Fin M → Fin D → ℝ)
    (blur : ℝ) (k : ℕ) (backend : String)
    (h1 : backend ≠ "keops") (h2 : backend ≠ "pytorch") :
    sinkhorn_loop N M D a_i x_i b_j y_j blur (k + 1) backend
      = .error PyError.unboundLocalError := by
  unfold sinkhorn_loop
  simp [h1, h2, sinkhornIter]

/-! ### Claims -/

/-- C4: for every pair of point sets, the dense-mode cost entry computed via
the separable identity `(‖x‖² + ‖y‖²)/2 − x·y` equals the reference value
`½ Σ_d (x[d] − y[d])²`, entry by entry (exact real arithmetic). -/
theorem C4_dense_cost_identity (D : ℕ) (x y : Fin D → ℝ) :
    costDense D x y = (∑ d, (x d - y d) ^ 2) / 2 := by
  rw [costDense_eq_costKeops]
  rfl

/-- C5: the lazy ("keops") and dense ("pytorch") cost evaluators produce the
same value `C_ij` for every index pair, and `sinkhorn_loop` run with either
backend on the same inputs returns the same dual potentials (exact real
arithmetic, so the floating tolerance is 0). -/
theorem C5_backends_agree (N M D : ℕ) (a_i : Fin N → ℝ) (x_i : Fin N → Fin D → ℝ)
    (b_j : Fin M → ℝ) (y_j : Fin M → Fin D → ℝ) (blur : ℝ) (nits : ℕ) :
    (∀ i j, costKeops D (x_i i) (y_j j) = costDense D (x_i i) (y_j j)) ∧
    sinkhorn_loop N M D a_i x_i b_j y_j blur nits "keops"
      = sinkhorn_loop N M D a_i x_i b_j y_j blur nits "pytorch" := by
  have hC : ∀ i j, costKeops D (x_i i) (y_j j) = costDense D (x_i i) (y_j j) :=
    fun i j => (costDense_eq_costKeops D (x_i i) (y_j j)).symm
  refine ⟨hC, ?_⟩
  rw [sinkhorn_loop_keops_eq, sinkhorn_loop_pytorch_eq]
  have hCfun : (fun i j => costKeops D (x_i i) (y_j j))
      = fun i j => costDense D (x_i i) (y_j j) := by
    funext i j
    exact hC i j
  rw [hCfun]

/-- C7: `sinkhorn_loop` uses the temperature `ε = blur²`, and (for both valid
backends) the returned pair is exactly the raw log-domain dual iterates
multiplied by `ε`, with no further rescaling. -/
theorem C7_eps_scaling (N M D : ℕ) (a_i : Fin N → ℝ) (x_i : Fin N → Fin D → ℝ)
    (b_j : Fin M → ℝ) (y_j : Fin M → Fin D → ℝ) (blur : ℝ) (nits : ℕ) :
    sinkhorn_loop N M D a_i x_i b_j y_j blur nits "keops" =
      .ok (fun i => blur ^ 2 *
             (sinkhornRawIter N M (fun i j => costKeops D (x_i i) (y_j j)) (blur ^ 2)
               (fun i => Real.log (a_i i)) (fun j => Real.log (b_j j)) nits).1 i,
           fun j => blur ^ 2 *
             (sinkhornRawIter N M (fun i j => costKeops D (x_i i) (y_j j)) (blur ^ 2)
               (fun i => Real.log (a_i i)) (fun j => Real.log (b_j j)) nits).2 j) ∧
    sinkhorn_loop N M D a_i x_i b_j y_j blur nits "pytorch" =
      .ok (fun i => blur ^ 2 *
             (sinkhornRawIter N M (fun i j => costDense D (x_i i) (y_j j)) (blur ^ 2)
               (fun i => Real.log (a_i i)) (fun j => Real.log (b_j j)) nits).1 i,
           fun j => blur ^ 2 *
             (sinkhornRawIter N M (fun i j => costDense D (x_i i) (y_j j)) (blur ^ 2)
               (fun i => Real.log (a_i i)) (fun j => Real.log (b_j j)) nits).2 j) :=
  ⟨sinkhorn_loop_keops_eq N M D a_i x_i b_j y_j blur nits,
   sinkhorn_loop_pytorch_eq N M D a_i x_i b_j y_j blur nits⟩

theorem specSweep_succ_fst (N M : ℕ) (C : Fin N → Fin M → ℝ) (eps : ℝ)
    (a : Fin N → ℝ) (b : Fin M → ℝ) (t : ℕ) (i : Fin N) :
    (specSweep N M C eps a b (t + 1)).1 i
      = - eps * Real.log (∑ j, Real.exp
          (- C i j / eps + (specSweep N M C eps a b t).2 j / eps + Real.log (b j))) := rfl

theorem specSweep_succ_snd (N M : ℕ) (C : Fin N → Fin M → ℝ) (eps : ℝ)
    (a : Fin N → ℝ) (b : Fin M → ℝ) (t : ℕ) (j : Fin M) :
    (specSweep N M C eps a b (t + 1)).2 j
      = - eps * Real.log (∑ i, Real.exp
          (- C i j / eps + (specSweep N M C eps a b (t + 1)).1 i / eps + Real.log (a i))) := rfl

theorem specSweep_eq_scaled_rawIter (N M : ℕ) (C : Fin N → Fin M → ℝ) (eps : ℝ)
    (a : Fin N → ℝ) (b : Fin M → ℝ) (heps : eps ≠ 0) (t : ℕ) :
    specSweep N M C eps a b t =
      (fun i => eps * (sinkhornRawIter N M C eps
          (fun i => Real.log (a i)) (fun j => Real.log (b j)) t).1 i,
       fun j => eps * (sinkhornRawIter N M C eps
          (fun i => Real.log (a i)) (fun j => Real.log (b j)) t).2 j) := by
  induction t with
  | zero =>
    simp [specSweep, sinkhornRawIter]
  | succ t ih =>
    rw [sinkhornRawIter_succ]
    generalize hR : sinkhornRawIter N M C eps
        (fun i => Real.log (a i)) (fun j => Real.log (b j)) t = R
    rw [hR] at ih
    have h2 : ∀ j, (specSweep N M C eps a b t).2 j = eps * R.2 j := by
      intro j
      rw [ih]
    have hF : ∀ i, (specSweep N M C eps a b (t + 1)).1 i
        = eps * (sinkhornStep N M C eps
            (fun i => Real.log (a i)) (fun j => Real.log (b j)) R).1 i := by
      intro i
      rw [specSweep_succ_fst]
      have hs : (∑ j, Real.exp
            (- C i j / eps + (specSweep N M C eps a b t).2 j / eps + Real.log (b j)))
          = ∑ j, Real.exp (- C i j / eps + (R.2 j + Real.log (b j))) :=
        Finset.sum_congr rfl fun j _ => by
          rw [h2 j, mul_div_cancel_left₀ _ heps, add_assoc]
      rw [hs]
      simp only [sinkhornStep, logsumexp]
      ring
    have hG : ∀ j, (specSweep N M C eps a b (t + 1)).2 j
        = eps * (sinkhornStep N M C eps
            (fun i => Real.log (a i)) (fun j => Real.log (b j)) R).2 j := by
      intro j
      rw [specSweep_succ_snd]
      have hs : (∑ i, Real.exp
            (- C i j / eps + (specSweep N M C eps a b (t + 1)).1 i / eps + Real.log (a i)))
          = ∑ i, Real.exp (- C i j / eps + ((sinkhornStep N M C eps
              (fun i => Real.log (a i)) (fun j => Real.log (b j)) R).1 i + Real.log (a i))) :=
        Finset.sum_congr rfl fun i _ => by
          rw [hF i, mul_div_cancel_left₀ _ heps, add_assoc]
      rw [hs]
      simp only [sinkhornStep, logsumexp]
      ring
    exact Prod.ext (funext hF) (funext hG)

/-- C6: for every call with iteration count `T` (and positive blur),
`sinkhorn_loop` performs the two coordinate-ascent updates exactly `T` times
in strict Gauss-Seidel order: its result is exactly the `T`-th iterate of a
recurrence (`specSweep`) in which each sweep first recomputes every `F_i` as
`−ε·logsumexp_j[(−C_ij/ε) + G_j/ε + log b_j]` from the previous sweep's `G`,
and then recomputes every `G_j` as
`−ε·logsumexp_i[(−C_ij/ε) + F_i/ε + log a_i]` from the just-updated `F`,
never applying the two updates simultaneously. -/
theorem C6_gauss_seidel_sweeps (N M D : ℕ) (a_i : Fin N → ℝ) (x_i : Fin N → Fin D → ℝ)
    (b_j : Fin M → ℝ) (y_j : Fin M → Fin D → ℝ) (blur : ℝ) (T : ℕ)
    (hblur : 0 < blur) :
    sinkhorn_loop N M D a_i x_i b_j y_j blur T "keops" =
      .ok (specSweep N M (fun i j => costKeops D (x_i i) (y_j j)) (blur ^ 2) a_i b_j T) := by
  rw [sinkhorn_loop_keops_eq,
    specSweep_eq_scaled_rawIter N M (fun i j => costKeops D (x_i i) (y_j j)) (blur ^ 2)
      a_i b_j (by positivity) T]

/-- C6 witness: at a concrete one-point problem with blur 1 and `T = 2`. -/
theorem C6_gauss_seidel_sweeps_witness :
    (0 : ℝ) < 1 ∧
    sinkhorn_loop 1 1 1 (fun _ => 1) (fun _ _ => 0) (fun _ => 1) (fun _ _ => 0) 1 2 "keops" =
      .ok (specSweep 1 1 (fun i j => costKeops 1 ((fun _ _ => (0 : ℝ)) i) ((fun _ _ => (0 : ℝ)) j))
        (1 ^ 2) (fun _ => 1) (fun _ => 1) 2) :=
  ⟨one_pos,
   C6_gauss_seidel_sweeps 1 1 1 (fun _ => 1) (fun _ _ => 0) (fun _ => 1) (fun _ _ => 0) 1 2 one_pos⟩

/-- C3: for strictly positive weights, positive blur and every backend string,
`sinkhorn_loop` with `nits = 0` returns dual potentials that are identically
zero. -/
theorem C3_zero_iterations_zero_potentials (N M D : ℕ) (a_i : Fin N → ℝ)
    (x_i : Fin N → Fin D → ℝ) (b_j : Fin M → ℝ) (y_j : Fin M → Fin D → ℝ)
    (blur : ℝ) (backend : String)
    (ha : ∀ i, 0 < a_i i) (hb : ∀ j, 0 < b_j j) (hblur : 0 < blur) :
    sinkhorn_loop N M D a_i x_i b_j y_j blur 0 backend
      = .ok (fun _ => 0, fun _ => 0) :=
  sinkhorn_loop_zero_nits N M D a_i x_i b_j y_j blur backend

/-- C3 witness: a concrete one-point problem, run with zero iterations. -/
theorem C3_zero_iterations_zero_potentials_witness :
    ((∀ i : Fin 1, (0 : ℝ) < (fun _ : Fin 1 => (1 : ℝ)) i) ∧
     (∀ j : Fin 1, (0 : ℝ) < (fun _ : Fin 1 => (1 : ℝ)) j) ∧ (0 : ℝ) < 1) ∧
    sinkhorn_loop 1 1 1 (fun _ => 1) (fun _ _ => 0) (fun _ => 1) (fun _ _ => 0) 1 0 "numpy" =
      .ok (fun _ => 0, fun _ => 0) :=
  ⟨⟨fun _ => one_pos, fun _ => one_pos, one_pos⟩,
   C3_zero_iterations_zero_potentials 1 1 1 (fun _ => 1) (fun _ _ => 0) (fun _ => 1)
     (fun _ _ => 0) 1 "numpy" (fun _ => one_pos) (fun _ => one_pos) one_pos⟩

/-- C10: for every backend string other than `"keops"` and `"pytorch"` and
every `nits ≥ 1`, `sinkhorn_loop` fails with `UnboundLocalError` at the first
read of the never-assigned cost matrix, with no prior validation of the
backend argument. -/
theorem C10_invalid_backend_unbound_local (N M D : ℕ) (a_i : Fin N → ℝ)
    (x_i : Fin N → Fin D → ℝ) (b_j : Fin M → ℝ) (y_j : Fin M → Fin D → ℝ)
    (blur : ℝ) (nits : ℕ) (backend : String)
    (h1 : backend ≠ "keops") (h2 : backend ≠ "pytorch") (hn : 1 ≤ nits) :
    sinkhorn_loop N M D a_i x_i b_j y_j blur nits backend
      = .error PyError.unboundLocalError := by
  obtain ⟨k, rfl⟩ : ∃ k, nits = k + 1 := ⟨nits - 1, by omega⟩
  exact sinkhorn_loop_invalid_backend_succ N M D a_i x_i b_j y_j blur k backend h1 h2

/-- C10 witness: backend `"numpy"` with one iteration. -/
theorem C10_invalid_backend_unbound_local_witness :
    (("numpy" : String) ≠ "keops" ∧ ("numpy" : String) ≠ "pytorch" ∧ 1 ≤ 1) ∧
    sinkhorn_loop 1 1 1 (fun _ => 1) (fun _ _ => 0) (fun _ => 1) (fun _ _ => 0) 1 1 "numpy" =
      .error PyError.unboundLocalError :=
  ⟨⟨by decide, by decide, le_refl 1⟩,
   C10_invalid_backend_unbound_local 1 1 1 (fun _ => 1) (fun _ _ => 0) (fun _ => 1)
     (fun _ _ => 0) 1 1 "numpy" (by decide) (by decide) (le_refl 1)⟩

theorem sliceStep_length_eq {α β : Type} :
    ∀ (l1 : List α) (l2 : List β) (d : ℕ), l1.length = l2.length →
      (sliceStep l1 d).length = (sliceStep l2 d).length
  | [], [], _, _ => by simp [sliceStep]
  | [], _ :: _, _, h => absurd h (by simp)
  | _ :: _, [], _, h => absurd h (by simp)
  | _ :: xs, _ :: zs, d, h => by
    simp only [sliceStep, List.length_cons]
    have hlen : (xs.drop (d - 1)).length = (zs.drop (d - 1)).length := by
      simp only [List.length_drop]
      simp only [List.length_cons] at h
      omega
    rw [sliceStep_length_eq (xs.drop (d - 1)) (zs.drop (d - 1)) d hlen]
termination_by l1 _ _ _ => l1.length
decreasing_by
  simp only [List.length_drop, List.length_cons]
  omega

theorem sum_map_div (l : List ℝ) (s : ℝ) : (l.map fun w => w / s).sum = l.sum / s := by
  induction l with
  | nil => simp
  | cons w l ih => simp [ih, add_div]

/-- C2 counterexample: at weights `a = [0]` (so a weight is `≤ 0`),
`sinkhorn_loop` with one iteration does not fail: `torch.log` is total, no
`DomainError` exists in the code, and the call returns an ordinary `.ok`
result. -/
theorem C2_no_domain_error_counterexample :
    (fun _ : Fin 1 => (0 : ℝ)) 0 ≤ 0 ∧
    (sinkhorn_loop 1 1 1 (fun _ => 0) (fun _ _ => 0) (fun _ => 1) (fun _ _ => 0)
        1 1 "keops").isOk = true := by
  refine ⟨le_refl 0, ?_⟩
  rw [sinkhorn_loop_keops_eq]
  rfl

/-- C2 (amended): `sinkhorn_loop` performs no validation of the weights and
raises no error when some weight in `a_i` or `b_j` is `≤ 0`: the logarithm is
applied to the weights as-is (`torch.log` is total; in floating point a
non-positive weight yields `-inf`/`NaN`, not an exception), and for both
valid backends all `nits` Sinkhorn iterations are performed, the call
returning the ε-scaled `nits`-th dual iterates. -/
theorem C2_no_weight_validation (N M D : ℕ) (a_i : Fin N → ℝ) (x_i : Fin N → Fin D → ℝ)
    (b_j : Fin M → ℝ) (y_j : Fin M → Fin D → ℝ) (blur : ℝ) (nits : ℕ)
    (h : (∃ i, a_i i ≤ 0) ∨ ∃ j, b_j j ≤ 0) :
    sinkhorn_loop N M D a_i x_i b_j y_j blur nits "keops" =
      .ok (fun i => blur ^ 2 *
             (sinkhornRawIter N M (fun i j => costKeops D (x_i i) (y_j j)) (blur ^ 2)
               (fun i => Real.log (a_i i)) (fun j => Real.log (b_j j)) nits).1 i,
           fun j => blur ^ 2 *
             (sinkhornRawIter N M (fun i j => costKeops D (x_i i) (y_j j)) (blur ^ 2)
               (fun i => Real.log (a_i i)) (fun j => Real.log (b_j j)) nits).2 j) ∧
    sinkhorn_loop N M D a_i x_i b_j y_j blur nits "pytorch" =
      .ok (fun i => blur ^ 2 *
             (sinkhornRawIter N M (fun i j => costDense D (x_i i) (y_j j)) (blur ^ 2)
               (fun i => Real.log (a_i i)) (fun j => Real.log (b_j j)) nits).1 i,
           fun j => blur ^ 2 *
             (sinkhornRawIter N M (fun i j => costDense D (x_i i) (y_j j)) (blur ^ 2)
               (fun i => Real.log (a_i i)) (fun j => Real.log (b_j j)) nits).2 j) :=
  ⟨sinkhorn_loop_keops_eq N M D a_i x_i b_j y_j blur nits,
   sinkhorn_loop_pytorch_eq N M D a_i x_i b_j y_j blur nits⟩

/-- C2 (amended) witness: a concrete call with a zero weight. -/
theorem C2_no_weight_validation_witness :
    ((∃ i : Fin 1, (fun _ : Fin 1 => (0 : ℝ)) i ≤ 0) ∨
      ∃ j : Fin 1, (fun _ : Fin 1 => (1 : ℝ)) j ≤ 0) ∧
    (sinkhorn_loop 1 1 1 (fun _ => 0) (fun _ _ => 0) (fun _ => 1) (fun _ _ => 0) 1 1 "keops" =
      .ok (fun i => 1 ^ 2 *
             (sinkhornRawIter 1 1 (fun i j => costKeops 1 ((fun _ _ => (0 : ℝ)) i)
                 ((fun _ _ => (0 : ℝ)) j)) (1 ^ 2)
               (fun i => Real.log ((fun _ : Fin 1 => (0 : ℝ)) i))
               (fun j => Real.log ((fun _ : Fin 1 => (1 : ℝ)) j)) 1).1 i,
           fun j => 1 ^ 2 *
             (sinkhornRawIter 1 1 (fun i j => costKeops 1 ((fun _ _ => (0 : ℝ)) i)
                 ((fun _ _ => (0 : ℝ)) j)) (1 ^ 2)
               (fun i => Real.log ((fun _ : Fin 1 => (0 : ℝ)) i))
               (fun j => Real.log ((fun _ : Fin 1 => (1 : ℝ)) j)) 1).2 j) ∧
     sinkhorn_loop 1 1 1 (fun _ => 0) (fun _ _ => 0) (fun _ => 1) (fun _ _ => 0) 1 1 "pytorch" =
      .ok (fun i => 1 ^ 2 *
             (sinkhornRawIter 1 1 (fun i j => costDense 1 ((fun _ _ => (0 : ℝ)) i)
                 ((fun _ _ => (0 : ℝ)) j)) (1 ^ 2)
               (fun i => Real.log ((fun _ : Fin 1 => (0 : ℝ)) i))
               (fun j => Real.log ((fun _ : Fin 1 => (1 : ℝ)) j)) 1).1 i,
           fun j => 1 ^ 2 *
             (sinkhornRawIter 1 1 (fun i j => costDense 1 ((fun _ _ => (0 : ℝ)) i)
                 ((fun _ _ => (0 : ℝ)) j)) (1 ^ 2)
               (fun i => Real.log ((fun _ : Fin 1 => (0 : ℝ)) i))
               (fun j => Real.log ((fun _ : Fin 1 => (1 : ℝ)) j)) 1).2 j)) :=
  ⟨Or.inl ⟨0, le_refl 0⟩,
   C2_no_weight_validation 1 1 1 (fun _ => 0) (fun _ _ => 0) (fun _ => 1) (fun _ _ => 0) 1 1
     (Or.inl ⟨0, le_refl 0⟩)⟩

/-- C9 counterexample: the measure `([0, 1], [5, 6])` has equal-length
components and weights of positive sum, yet `subsample` with decimation 2
keeps only the zero weight, and the renormalized weights sum to 0, not 1. -/
theorem C9_subsample_counterexample :
    ([0, 1] : List ℝ).length = ([5, 6] : List ℝ).length ∧
    (0 : ℝ) < ([0, 1] : List ℝ).sum ∧ 1 ≤ 2 ∧
    (subsample (([0, 1] : List ℝ), ([5, 6] : List ℝ)) 2).1.sum ≠ 1 := by
  refine ⟨rfl, by norm_num, by norm_num, ?_⟩
  simp [subsample, sliceStep]

/-- C9 (amended): for every measure with equal-length weights and locations
and every decimation step `d ≥ 1`, `subsample` returns equal-length weights
and locations; and whenever the weights retained by the slice have positive
sum (in particular whenever all weights are strictly positive), the returned
weights sum to exactly 1. -/
theorem C9_subsample_invariant {α : Type} (weights : List ℝ) (locations : List α)
    (d : ℕ) (hlen : weights.length = locations.length) (hd : 1 ≤ d)
    (hpos : 0 < (sliceStep weights d).sum) :
    (subsample (weights, locations) d).1.length
      = (subsample (weights, locations) d).2.length ∧
    (subsample (weights, locations) d).1.sum = 1 := by
  constructor
  · simp only [subsample, List.length_map]
    exact sliceStep_length_eq weights locations d hlen
  · simp only [subsample]
    rw [sum_map_div]
    exact div_self (ne_of_gt hpos)

/-- C9 (amended) witness: decimating `([1, 1], [5, 6])` with step 1. -/
theorem C9_subsample_invariant_witness :
    (([1, 1] : List ℝ).length = ([5, 6] : List ℝ).length ∧ 1 ≤ 1 ∧
      0 < (sliceStep ([1, 1] : List ℝ) 1).sum) ∧
    ((subsample (([1, 1] : List ℝ), ([5, 6] : List ℝ)) 1).1.length
        = (subsample (([1, 1] : List ℝ), ([5, 6] : List ℝ)) 1).2.length ∧
     (subsample (([1, 1] : List ℝ), ([5, 6] : List ℝ)) 1).1.sum = 1) :=
  ⟨⟨rfl, le_refl 1, by simp [sliceStep]⟩,
   C9_subsample_invariant [1, 1] [5, 6] 1 rfl (le_refl 1) (by simp [sliceStep])⟩

/-- C1: evaluating `full_benchmark` at a failing input.  The ground truth is
computed on the module-level `sources[0]` and `targets[0]`, not on the
`source` and `target` arguments: with a reference solver that reads the
source measure (here measures are plain reals), calling `full_benchmark`
with `source = target = 1` while `sources[0] = targets[0] = 0` returns a
GroundTruth different from the reference solver applied to the measures that
were passed in. -/
theorem C1_ground_truth_ignores_passed_measures :
    (full_benchmark (fun (_ : ℝ) (s : ℝ) (_ : ℝ) => s) (fun (_ : ℝ) (_ : ℝ) (_ : ℝ) (_ : ℝ) => (0 : ℝ))
        (fun _ => (0 : ℝ)) (fun _ => (0 : ℝ)) 1 1 (1 / 100)).2
      ≠ (fun (_ : ℝ) (s : ℝ) (_ : ℝ) => s) (1 / 100) 1 1 := by
  simp [full_benchmark]

end Benchmarks3D
